import Mathlib

/-!
Shallow embedding of the car-wash booking application (src/app.py).

The SQLite tables created in init_db (app.py:30-182) are modelled as lists of
records inside a single `DB` state; AUTOINCREMENT primary keys are modelled by
explicit next-id counters.  Timestamps (TEXT columns filled from now_str,
app.py:23-24) are modelled as abstract ticks (`Time := Nat`) passed explicitly
to each operation.  Columns that no modelled operation ever reads (user names,
phones, password hashes, vehicle make/model/colour, timestamps of rows the
operations never touch) are omitted from the records.  The REAL price column is
modelled as `Nat`: every modelled operation only copies or compares it.

The four state-changing operations the claims are about are translated from
the Streamlit handlers:

* `create`        - the Create Booking handler (app.py:293-316) together with
                    the selection guards feeding its inputs: the vehicle picker
                    lists only the logged-in customer's vehicles
                    (app.py:243,284,288,294), the package picker lists only
                    active packages (app.py:229-231,285,289,295), and the
                    first-stage query (app.py:298-299) fails when the catalog
                    has no stage.
* `advanceStage`  - the Update Stage handler (app.py:435-476) together with its
                    guards: the booking picker lists only Booked/InProgress
                    bookings (app.py:408-417) and the stage picker lists only
                    catalog stages (app.py:419-432,446).
* `updatePayment` - the Update Payment handler (app.py:527-541); when no
                    payment row exists no update runs (app.py:542-543).
* `assign`        - one iteration of the Save Assignment loop (app.py:498-506),
                    modelled against raw identifiers with full SQLite
                    constraint semantics (primary key (booking_id, staff_id),
                    app.py:131, and the two foreign keys, app.py:132-135),
                    because its try/except swallows every sqlite3.IntegrityError.
-/

namespace Carwash

abbrev Time := Nat

inductive Role where
  | Customer
  | Staff
  | Admin
deriving DecidableEq, Repr

/-- users table (app.py:35-45); only the columns read by the modelled
operations are carried. -/
structure User where
  user_id : Nat
  role : Role
deriving DecidableEq, Repr

/-- vehicles table (app.py:48-60). -/
structure Vehicle where
  vehicle_id : Nat
  customer_id : Nat
  plate_no : String
deriving DecidableEq, Repr

/-- packages table (app.py:63-71). -/
structure Package where
  package_id : Nat
  package_name : String
  price : Nat
  duration_minutes : Nat
  is_active : Bool
deriving DecidableEq, Repr

/-- service_stages table (app.py:74-80). -/
structure Stage where
  stage_id : Nat
  stage_name : String
  stage_order : Nat
deriving DecidableEq, Repr

inductive BStatus where
  | Booked
  | InProgress
  | Completed
  | Cancelled
deriving DecidableEq, Repr

inductive PMethod where
  | Cash
  | Card
  | Online
deriving DecidableEq, Repr

inductive PStatus where
  | Unpaid
  | Paid
  | Partial
  | Refunded
deriving DecidableEq, Repr

/-- bookings table (app.py:83-104). -/
structure Booking where
  booking_id : Nat
  customer_id : Nat
  vehicle_id : Nat
  package_id : Nat
  booking_datetime : Time
  scheduled_datetime : Option Time
  status : BStatus
  current_stage_id : Option Nat
  notes : Option String
deriving DecidableEq, Repr

/-- booking_stage_history table (app.py:107-123). -/
structure HistoryEntry where
  history_id : Nat
  booking_id : Nat
  stage_id : Nat
  start_time : Time
  end_time : Option Time
  updated_by_staff_id : Nat
deriving DecidableEq, Repr

/-- booking_staff_assignment table (app.py:126-137). -/
structure Assignment where
  booking_id : Nat
  staff_id : Nat
  assigned_at : Time
deriving DecidableEq, Repr

/-- payments table (app.py:140-152). -/
structure Payment where
  payment_id : Nat
  booking_id : Nat
  amount : Nat
  method : PMethod
  payment_status : PStatus
  paid_at : Option Time
deriving DecidableEq, Repr

/-- The whole SQLite database.  AUTOINCREMENT key generation is modelled by
the next-id counters. -/
structure DB where
  users : List User
  vehicles : List Vehicle
  packages : List Package
  service_stages : List Stage
  bookings : List Booking
  booking_stage_history : List HistoryEntry
  booking_staff_assignment : List Assignment
  payments : List Payment
  next_booking_id : Nat
  next_history_id : Nat
  next_payment_id : Nat
deriving DecidableEq, Repr

/-- Typed error vocabulary for the rejected paths (the spec's names; the
rejection sets themselves come from the code, see each operation). -/
inductive Err where
  | NotFound
  | InvalidState
  | InvalidTransition
deriving DecidableEq, Repr

/-- The two kinds of sqlite3.IntegrityError the assignment insert can raise:
violating the primary key (booking_id, staff_id) (app.py:131) or one of the
two foreign keys (app.py:132-135). -/
inductive SqlErr where
  | pkDuplicate
  | fkViolation
deriving DecidableEq, Repr

instance {e a : Type} [DecidableEq e] [DecidableEq a] : DecidableEq (Except e a) :=
  fun x y =>
    match x, y with
    | Except.ok u, Except.ok w =>
      if h : u = w then isTrue (by rw [h])
      else isFalse (fun hc => h (Except.ok.inj hc))
    | Except.error u, Except.error w =>
      if h : u = w then isTrue (by rw [h])
      else isFalse (fun hc => h (Except.error.inj hc))
    | Except.ok _, Except.error _ => isFalse (fun hc => Except.noConfusion hc)
    | Except.error _, Except.ok _ => isFalse (fun hc => Except.noConfusion hc)

-- ======================
-- lookup helpers (SELECT ... WHERE)
-- ======================

/-- SELECT * FROM bookings WHERE booking_id=? (app.py:423-425). -/
def findBooking (db : DB) (bid : Nat) : Option Booking :=
  db.bookings.find? (fun b => b.booking_id == bid)

/-- SELECT * FROM service_stages WHERE stage_id=? (app.py:451). -/
def findStage (db : DB) (sid : Nat) : Option Stage :=
  db.service_stages.find? (fun s => s.stage_id == sid)

/-- SELECT * FROM packages WHERE package_id=? (app.py:308). -/
def findPackage (db : DB) (pid : Nat) : Option Package :=
  db.packages.find? (fun p => p.package_id == pid)

/-- The vehicle picker only offers vehicles WHERE customer_id=? of the
logged-in customer (app.py:243,284,288,294). -/
def findVehicleOf (db : DB) (customerId vehicleId : Nat) : Option Vehicle :=
  db.vehicles.find? (fun v => v.vehicle_id == vehicleId && v.customer_id == customerId)

/-- SELECT * FROM payments WHERE booking_id=? (app.py:527). -/
def findPayment (db : DB) (bid : Nat) : Option Payment :=
  db.payments.find? (fun p => p.booking_id == bid)

/-- Lookup of a history row by its primary key. -/
def findHist (db : DB) (hid : Nat) : Option HistoryEntry :=
  db.booking_stage_history.find? (fun h => h.history_id == hid)

/-- Minimum-order stage of a stage list (ties broken towards the front, which
cannot arise under the UNIQUE stage_order constraint). -/
def stageMin : List Stage → Option Stage
  | [] => none
  | s :: rest =>
    match stageMin rest with
    | none => some s
    | some m => if s.stage_order ≤ m.stage_order then some s else some m

/-- SELECT stage_id FROM service_stages ORDER BY stage_order LIMIT 1
(app.py:298). -/
def firstStage (db : DB) : Option Stage :=
  stageMin db.service_stages

/-- SELECT MAX(stage_order) FROM service_stages (app.py:452); 0 stands for the
NULL returned on an empty table (stage_order is CHECKed > 0). -/
def maxStageOrder (db : DB) : Nat :=
  db.service_stages.foldl (fun m s => max m s.stage_order) 0

/-- History rows of a booking whose end_time is still NULL. -/
def openEntries (db : DB) (bid : Nat) : List HistoryEntry :=
  db.booking_stage_history.filter (fun h => h.booking_id == bid && h.end_time == none)

def openCount (db : DB) (bid : Nat) : Nat :=
  (openEntries db bid).length

/-- The current_stage_id of a booking, when the booking exists. -/
def currentOf (db : DB) (bid : Nat) : Option Nat :=
  (findBooking db bid).bind (fun b => b.current_stage_id)

/-- Number of assignment rows for the (booking, staff) pair. -/
def countAssign (db : DB) (b s : Nat) : Nat :=
  (db.booking_staff_assignment.filter (fun a => a.booking_id == b && a.staff_id == s)).length

def bookingExists (db : DB) (b : Nat) : Bool :=
  db.bookings.any (fun bb => bb.booking_id == b)

def userExists (db : DB) (u : Nat) : Bool :=
  db.users.any (fun x => x.user_id == u)

-- ======================
-- operations
-- ======================

/-- Create Booking (app.py:293-316).  Checks in source order: the vehicle must
be one of the customer's vehicles (vehicle_map lookup, app.py:294, fed from
app.py:243,284), the package must be an existing, active package (pkg_map
lookup, app.py:295, fed from app.py:229-231,285; `Err.NotFound` when the row is
absent, `Err.InvalidState` when it exists but is inactive), and the catalog
must have a first stage (app.py:298-299; the fetchone there fails before any
insert when no stage exists - `Err.InvalidState`).  On success the booking row
(status Booked, current_stage_id = first stage by order, app.py:301-304) and
the payment row (amount = package price, Cash, Unpaid, NULL paid_at,
app.py:308-312) are inserted and committed together (app.py:314); no history
row is written. -/
def create (db : DB) (customerId vehicleId packageId : Nat)
    (scheduledAt : Option Time) (notes : Option String) (now : Time) :
    Except Err (DB × Nat) :=
  match findVehicleOf db customerId vehicleId with
  | none => Except.error Err.NotFound
  | some _ =>
    match findPackage db packageId with
    | none => Except.error Err.NotFound
    | some pkg =>
      if pkg.is_active = false then Except.error Err.InvalidState
      else
        match firstStage db with
        | none => Except.error Err.InvalidState
        | some fs =>
          Except.ok
            ({ db with
                bookings := db.bookings ++
                  [⟨db.next_booking_id, customerId, vehicleId, packageId, now,
                    scheduledAt, BStatus.Booked, some fs.stage_id, notes⟩],
                payments := db.payments ++
                  [⟨db.next_payment_id, db.next_booking_id, pkg.price,
                    PMethod.Cash, PStatus.Unpaid, none⟩],
                next_booking_id := db.next_booking_id + 1,
                next_payment_id := db.next_payment_id + 1 },
              db.next_booking_id)

/-- The booking picker of the Update Stage tab only offers bookings with
status IN ('Booked','InProgress') (app.py:408-412). -/
def activeStatus : BStatus → Bool
  | BStatus.Booked => true
  | BStatus.InProgress => true
  | BStatus.Completed => false
  | BStatus.Cancelled => false

/-- UPDATE booking_stage_history SET end_time=? WHERE booking_id=? AND
stage_id=? AND end_time IS NULL (app.py:440-444): every open row for the pair
is closed, not only the most recent one. -/
def closeOpen (hist : List HistoryEntry) (bid cs : Nat) (now : Time) :
    List HistoryEntry :=
  hist.map (fun h =>
    if h.booking_id = bid ∧ h.stage_id = cs ∧ h.end_time = none then
      { h with end_time := some now }
    else h)

/-- Step 'End previous history row if requested' (app.py:439-444): runs only
when the checkbox is set and current_stage_id is not NULL. -/
def closedHist (db : DB) (bid : Nat) (b : Booking) (cp : Bool) (now : Time) :
    List HistoryEntry :=
  if cp then
    match b.current_stage_id with
    | some cs => closeOpen db.booking_stage_history bid cs now
    | none => db.booking_stage_history
  else db.booking_stage_history

/-- Update Stage (app.py:435-476) with its two picker guards: the booking must
exist with status Booked or InProgress (app.py:408-417; missing booking -
`Err.NotFound`, terminal status - `Err.InvalidTransition`), and the new stage
must be a catalog stage (app.py:419-432,446 - `Err.NotFound`).  Then, in source
order: close the open history rows of (booking, current stage) when requested
(app.py:439-444), derive the new status from the new stage's order against
MAX(stage_order) (app.py:448-454), update the booking row (app.py:457-461) and
insert the new open history row (app.py:464-467); all committed together
(app.py:474).  The payment row is never touched (app.py:469-472). -/
def advanceStage (db : DB) (bid nsid staffId : Nat) (cp : Bool) (now : Time) :
    Except Err DB :=
  match findBooking db bid with
  | none => Except.error Err.NotFound
  | some b =>
    if activeStatus b.status then
      match findStage db nsid with
      | none => Except.error Err.NotFound
      | some ns =>
        Except.ok
          { db with
              bookings := db.bookings.map (fun bb =>
                if bb.booking_id = bid then
                  { bb with
                      current_stage_id := some nsid,
                      status :=
                        if ns.stage_order = maxStageOrder db then BStatus.Completed
                        else BStatus.InProgress }
                else bb),
              booking_stage_history :=
                closedHist db bid b cp now ++
                  [⟨db.next_history_id, bid, nsid, now, none, staffId⟩],
              next_history_id := db.next_history_id + 1 }
    else Except.error Err.InvalidTransition

/-- Update Payment (app.py:527-541): when the payment row of the booking
exists, set method and payment_status, and set paid_at = now exactly when the
new status is Paid, NULL otherwise (app.py:533,535-538); when no row exists
nothing is updated (app.py:542-543). -/
def updatePayment (db : DB) (bid : Nat) (m : PMethod) (s : PStatus) (now : Time) :
    Except Err DB :=
  match findPayment db bid with
  | none => Except.error Err.NotFound
  | some _ =>
    Except.ok
      { db with
          payments := db.payments.map (fun p =>
            if p.booking_id = bid then
              { p with
                  method := m,
                  payment_status := s,
                  paid_at := if s = PStatus.Paid then some now else none }
            else p) }

/-- INSERT INTO booking_staff_assignment (app.py:501-504) with SQLite
constraint semantics: the primary key (booking_id, staff_id) (app.py:131)
rejects a duplicate pair, and with PRAGMA foreign_keys = ON (app.py:20) the
foreign keys (app.py:132-135) reject identifiers that reference no row. -/
def insertAssignment (db : DB) (b s : Nat) (t : Time) : Except SqlErr DB :=
  if db.booking_staff_assignment.any (fun a => a.booking_id == b && a.staff_id == s) then
    Except.error SqlErr.pkDuplicate
  else if bookingExists db b = false then Except.error SqlErr.fkViolation
  else if userExists db s = false then Except.error SqlErr.fkViolation
  else Except.ok { db with booking_staff_assignment :=
    db.booking_staff_assignment ++ [⟨b, s, t⟩] }

/-- One iteration of the Save Assignment loop (app.py:498-506): the insert is
wrapped in try/except sqlite3.IntegrityError: pass, so every integrity failure
- both constructors of `SqlErr` model sqlite3.IntegrityError - is swallowed
and reported as success with the state unchanged. -/
def assign (db : DB) (b s : Nat) (t : Time) : Except SqlErr DB :=
  match insertAssignment db b s t with
  | Except.ok db' => Except.ok db'
  | Except.error _ => Except.ok db

-- ======================
-- runners (a failed handler leaves the uncommitted transaction unapplied)
-- ======================

/-- A rejected call leaves the database untouched: nothing was committed. -/
def applyResult (db : DB) : Except Err DB → DB
  | Except.ok d => d
  | Except.error _ => db

def runCreate (db : DB) (c v p : Nat) (sc : Option Time) (nt : Option String)
    (now : Time) : DB :=
  match create db c v p sc nt now with
  | Except.ok x => x.1
  | Except.error _ => db

def runAdvance (db : DB) (bid nsid stf : Nat) (cp : Bool) (now : Time) : DB :=
  applyResult db (advanceStage db bid nsid stf cp now)

/-- A sequence of Update Payment calls on one booking, each applied when it
succeeds. -/
def runPayUpdates (db : DB) (bid : Nat) (us : List (PMethod × PStatus × Time)) : DB :=
  us.foldl (fun d u => applyResult d (updatePayment d bid u.1 u.2.1 u.2.2)) db

def stepAdvanceTrue (bid : Nat) (acc : Except Err DB) (c : Nat × Nat × Time) :
    Except Err DB :=
  match acc with
  | Except.error e => Except.error e
  | Except.ok d => advanceStage d bid c.1 c.2.1 true c.2.2

/-- A sequence of Update Stage calls on one booking, all with the
'End previous stage' checkbox set, each of which must succeed. -/
def runAdvancesTrue (db : DB) (bid : Nat) (calls : List (Nat × Nat × Time)) :
    Except Err DB :=
  calls.foldl (stepAdvanceTrue bid) (Except.ok db)

-- ======================
-- well-formedness facts the schema guarantees
-- ======================

/-- Identifiers handed out by the AUTOINCREMENT columns are below the next-id
counters; rows referencing bookings (FOREIGN KEY booking_id) can only name
already-created bookings. -/
abbrev DB.wf (db : DB) : Prop :=
  (∀ b ∈ db.bookings, b.booking_id < db.next_booking_id) ∧
  (∀ p ∈ db.payments, p.booking_id < db.next_booking_id) ∧
  (∀ h ∈ db.booking_stage_history, h.booking_id < db.next_booking_id)

/-- The history primary key: ids below the counter and pairwise distinct. -/
abbrev DB.wfHistIds (db : DB) : Prop :=
  (∀ h ∈ db.booking_stage_history, h.history_id < db.next_history_id) ∧
  db.booking_stage_history.Pairwise (fun a b => a.history_id ≠ b.history_id)

/-- The open-history invariant maintained by 'End previous stage' advances:
at most one open row per booking, and any open row is for the booking's
current stage. -/
abbrev OpenInv (db : DB) (bid : Nat) : Prop :=
  openCount db bid ≤ 1 ∧
  ∀ h ∈ db.booking_stage_history, h.booking_id = bid → h.end_time = none →
    currentOf db bid = some h.stage_id

-- ======================
-- concrete states (the seed catalog of init_db, app.py:154-171)
-- ======================

/-- One customer (id 1) with one vehicle, one staff member (id 2), the seeded
active package 'Basic Wash' (app.py:163-164) plus an inactive package, and the
seeded stage catalog Washing(1), Drying(2), Polishing(3), Completed(4)
(app.py:157). -/
def db0 : DB :=
  { users := [⟨1, Role.Customer⟩, ⟨2, Role.Staff⟩],
    vehicles := [⟨1, 1, "ABC-123"⟩],
    packages := [⟨1, "Basic Wash", 500, 20, true⟩, ⟨2, "Old Promo", 300, 15, false⟩],
    service_stages := [⟨1, "Washing", 1⟩, ⟨2, "Drying", 2⟩, ⟨3, "Polishing", 3⟩,
      ⟨4, "Completed", 4⟩],
    bookings := [],
    booking_stage_history := [],
    booking_staff_assignment := [],
    payments := [],
    next_booking_id := 1,
    next_history_id := 1,
    next_payment_id := 1 }

/-- State after customer 1 books vehicle 1 on package 1 at tick 1. -/
def createdDB : DB := runCreate db0 1 1 1 none none 1

/-- ... then staff 2 moves booking 1 to Washing at tick 2, closing previous. -/
def dbW : DB := runAdvance createdDB 1 1 2 true 2

/-- ... then to Drying at tick 3 WITHOUT closing the previous stage. -/
def dbWD : DB := runAdvance dbW 1 2 2 false 3

/-- ... and from dbW instead: to Washing again at tick 3 WITHOUT closing, so
two open rows for (booking 1, Washing) exist. -/
def dbWW : DB := runAdvance dbW 1 1 2 false 3

/-- Final state of the C3 scenario: from dbWD advance to Polishing at tick 4
with 'End previous stage' set. -/
def dbP : DB := runAdvance dbWD 1 3 2 true 4

/-- Final state of the C4 scenario: from dbWW advance to Drying at tick 4
with 'End previous stage' set. -/
def dbX : DB := runAdvance dbWW 1 2 2 true 4

/-- State after advancing booking 1 straight to the max-order stage. -/
def dbC : DB := runAdvance createdDB 1 4 2 true 2

/-- db0 with the stage catalog emptied. -/
def dbNoStages : DB := { db0 with service_stages := [] }

/-- State after marking booking 1's payment Paid by card at tick 7. -/
def dbPaid : DB := runPayUpdates createdDB 1 [(PMethod.Card, PStatus.Paid, 7)]

/-- ... and then Refunded at tick 8. -/
def dbRef : DB := runPayUpdates dbPaid 1 [(PMethod.Card, PStatus.Refunded, 8)]

/-- The columns of a payment row that `updatePayment` never writes
(app.py:535-538 sets only method, payment_status and paid_at). -/
def paySnapshot (p : Payment) : Nat × Nat × Nat :=
  (p.payment_id, p.booking_id, p.amount)

/-- Result of two 'End previous stage' advances (to Drying, then Polishing)
from createdDB. -/
def dEx3 : DB :=
  applyResult createdDB (runAdvancesTrue createdDB 1 [(2, 2, 2), (3, 2, 3)])

/-- From dbW: advance to Drying at tick 3 WITH closing the previous stage. -/
def dbWDc : DB := runAdvance dbW 1 2 2 true 3

-- ======================
-- generic list lemmas
-- ======================

lemma find?_map_key {α : Type} (g : α → α) (q : α → Bool)
    (hg : ∀ x, q (g x) = q x) :
    ∀ l : List α, (l.map g).find? q = (l.find? q).map g := by
  intro l
  induction l with
  | nil => rfl
  | cons a t ih =>
    cases hqa : q a with
    | true =>
      rw [List.map_cons, List.find?_cons_of_pos _ (by rw [hg]; exact hqa),
        List.find?_cons_of_pos _ hqa]
      rfl
    | false =>
      rw [List.map_cons, List.find?_cons_of_neg _ (by simp [hg, hqa]),
        List.find?_cons_of_neg _ (by simp [hqa]), ih]

lemma find?_append_none {α : Type} (q : α → Bool) (l1 l2 : List α)
    (h : ∀ x ∈ l1, q x = false) :
    (l1 ++ l2).find? q = l2.find? q := by
  induction l1 with
  | nil => rfl
  | cons a t ih =>
    have ha := h a (by simp)
    rw [List.cons_append, List.find?_cons_of_neg _ (by simp [ha])]
    exact ih (fun x hx => h x (by simp [hx]))

lemma find?_append_some {α : Type} (q : α → Bool) (l1 l2 : List α) (x : α)
    (h : l1.find? q = some x) :
    (l1 ++ l2).find? q = some x := by
  induction l1 with
  | nil => simp at h
  | cons a t ih =>
    cases hqa : q a with
    | true =>
      rw [List.find?_cons_of_pos _ hqa] at h
      rw [List.cons_append, List.find?_cons_of_pos _ hqa]
      exact h
    | false =>
      rw [List.find?_cons_of_neg _ (by simp [hqa])] at h
      rw [List.cons_append, List.find?_cons_of_neg _ (by simp [hqa])]
      exact ih h

lemma find?_pairwise_ne (l : List HistoryEntry) (h0 : HistoryEntry)
    (hmem : h0 ∈ l) (hpw : l.Pairwise (fun a b => a.history_id ≠ b.history_id)) :
    l.find? (fun h => h.history_id == h0.history_id) = some h0 := by
  induction l with
  | nil => simp at hmem
  | cons a t ih =>
    rcases List.mem_cons.mp hmem with rfl | hmem'
    · exact List.find?_cons_of_pos _ (by simp)
    · have hne : a.history_id ≠ h0.history_id :=
        (List.pairwise_cons.mp hpw).1 h0 hmem'
      rw [List.find?_cons_of_neg _ (by simp [hne])]
      exact ih hmem' (List.pairwise_cons.mp hpw).2

-- ======================
-- catalog lemmas: minimum and maximum stage order
-- ======================

lemma stageMin_cons_ne_none (s : Stage) (rest : List Stage) :
    stageMin (s :: rest) ≠ none := by
  rw [stageMin]
  cases hm : stageMin rest with
  | none => simp
  | some m =>
    show (if s.stage_order ≤ m.stage_order then some s else some m) ≠ none
    split <;> simp

lemma stageMin_spec :
    ∀ (l : List Stage) (fs : Stage), stageMin l = some fs →
      fs ∈ l ∧ ∀ t ∈ l, fs.stage_order ≤ t.stage_order := by
  intro l
  induction l with
  | nil => intro fs h; simp [stageMin] at h
  | cons s rest ih =>
    intro fs h
    rw [stageMin] at h
    cases hm : stageMin rest with
    | none =>
      rw [hm] at h
      have h' : some s = some fs := h
      cases h'
      refine ⟨by simp, ?_⟩
      intro t ht
      rcases List.mem_cons.mp ht with rfl | ht'
      · exact le_refl _
      · cases rest with
        | nil => simp at ht'
        | cons a r => exact absurd hm (stageMin_cons_ne_none a r)
    | some m =>
      rw [hm] at h
      have h' : (if s.stage_order ≤ m.stage_order then some s else some m) = some fs := h
      obtain ⟨hmmem, hmle⟩ := ih m hm
      by_cases hcmp : s.stage_order ≤ m.stage_order
      · rw [if_pos hcmp] at h'
        cases h'
        refine ⟨by simp, ?_⟩
        intro t ht
        rcases List.mem_cons.mp ht with rfl | ht'
        · exact le_refl _
        · exact le_trans hcmp (hmle t ht')
      · rw [if_neg hcmp] at h'
        cases h'
        refine ⟨List.mem_cons_of_mem _ hmmem, ?_⟩
        intro t ht
        rcases List.mem_cons.mp ht with rfl | ht'
        · exact le_of_not_le hcmp
        · exact hmle t ht'

lemma foldl_max_init_le (l : List Stage) :
    ∀ a : Nat, a ≤ l.foldl (fun m s => max m s.stage_order) a := by
  induction l with
  | nil => intro a; simp
  | cons s t ih =>
    intro a
    rw [List.foldl_cons]
    exact le_trans (le_max_left a s.stage_order) (ih _)

lemma le_foldl_max (l : List Stage) :
    ∀ (a : Nat) (t : Stage), t ∈ l →
      t.stage_order ≤ l.foldl (fun m s => max m s.stage_order) a := by
  induction l with
  | nil => intro a t ht; simp at ht
  | cons s r ih =>
    intro a t ht
    rcases List.mem_cons.mp ht with rfl | ht'
    · rw [List.foldl_cons]
      exact le_trans (le_max_right a t.stage_order) (foldl_max_init_le r _)
    · rw [List.foldl_cons]
      exact ih _ t ht'

lemma foldl_max_le (l : List Stage) :
    ∀ (a m : Nat), a ≤ m → (∀ t ∈ l, t.stage_order ≤ m) →
      l.foldl (fun m' s => max m' s.stage_order) a ≤ m := by
  induction l with
  | nil => intro a m ha _; simpa using ha
  | cons s r ih =>
    intro a m ha hall
    rw [List.foldl_cons]
    exact ih _ m (max_le ha (hall s (by simp))) (fun t ht => hall t (by simp [ht]))

lemma maxStageOrder_eq_iff (db : DB) (ns : Stage) (hmem : ns ∈ db.service_stages) :
    ns.stage_order = maxStageOrder db ↔
      ∀ t ∈ db.service_stages, t.stage_order ≤ ns.stage_order := by
  constructor
  · intro h t ht
    rw [h]
    exact le_foldl_max _ 0 t ht
  · intro h
    have h1 : ns.stage_order ≤ maxStageOrder db := le_foldl_max _ 0 ns hmem
    have h2 : maxStageOrder db ≤ ns.stage_order :=
      foldl_max_le _ 0 _ (Nat.zero_le _) h
    omega

-- ======================
-- shape of each operation's successful result
-- ======================

lemma create_ok (db : DB) (c v p : Nat) (sc : Option Time) (nt : Option String)
    (now : Time) (db' : DB) (bid : Nat)
    (h : create db c v p sc nt now = Except.ok (db', bid)) :
    ∃ veh pkg fs, findVehicleOf db c v = some veh ∧ findPackage db p = some pkg ∧
      pkg.is_active = true ∧ firstStage db = some fs ∧ bid = db.next_booking_id ∧
      db' = { db with
        bookings := db.bookings ++
          [⟨db.next_booking_id, c, v, p, now, sc, BStatus.Booked, some fs.stage_id, nt⟩],
        payments := db.payments ++
          [⟨db.next_payment_id, db.next_booking_id, pkg.price, PMethod.Cash,
            PStatus.Unpaid, none⟩],
        next_booking_id := db.next_booking_id + 1,
        next_payment_id := db.next_payment_id + 1 } := by
  unfold create at h
  cases hv : findVehicleOf db c v with
  | none => simp [hv] at h
  | some veh =>
    simp only [hv] at h
    cases hp : findPackage db p with
    | none => simp [hp] at h
    | some pkg =>
      simp only [hp] at h
      cases hact : pkg.is_active with
      | false => rw [hact, if_pos rfl] at h; simp at h
      | true =>
        rw [hact, if_neg (by simp)] at h
        cases hf : firstStage db with
        | none => simp [hf] at h
        | some fs =>
          simp only [hf] at h
          have hpair := Except.ok.inj h
          have h1 := congrArg Prod.fst hpair
          have h2 := congrArg Prod.snd hpair
          subst h2
          exact ⟨veh, pkg, fs, rfl, rfl, hact, rfl, rfl, h1.symm⟩

lemma advanceStage_ok (db : DB) (bid nsid stf : Nat) (cp : Bool) (now : Time)
    (db' : DB) (h : advanceStage db bid nsid stf cp now = Except.ok db') :
    ∃ b ns, findBooking db bid = some b ∧ activeStatus b.status = true ∧
      findStage db nsid = some ns ∧
      db' = { db with
        bookings := db.bookings.map (fun bb =>
          if bb.booking_id = bid then
            { bb with current_stage_id := some nsid,
                      status := if ns.stage_order = maxStageOrder db
                        then BStatus.Completed else BStatus.InProgress }
          else bb),
        booking_stage_history := closedHist db bid b cp now ++
          [⟨db.next_history_id, bid, nsid, now, none, stf⟩],
        next_history_id := db.next_history_id + 1 } := by
  unfold advanceStage at h
  cases hb : findBooking db bid with
  | none => simp [hb] at h
  | some b =>
    simp only [hb] at h
    cases hact : activeStatus b.status with
    | false => rw [hact, if_neg (by simp)] at h; simp at h
    | true =>
      rw [hact, if_pos rfl] at h
      cases hs : findStage db nsid with
      | none => simp [hs] at h
      | some ns =>
        simp only [hs] at h
        exact ⟨b, ns, rfl, hact, rfl, (Except.ok.inj h).symm⟩

lemma updatePayment_ok (db : DB) (bid : Nat) (m : PMethod) (s : PStatus)
    (now : Time) (db' : DB) (h : updatePayment db bid m s now = Except.ok db') :
    ∃ p0, findPayment db bid = some p0 ∧
      db' = { db with payments := db.payments.map (fun p =>
        if p.booking_id = bid then
          { p with method := m, payment_status := s,
                   paid_at := if s = PStatus.Paid then some now else none }
        else p) } := by
  unfold updatePayment at h
  cases hp : findPayment db bid with
  | none => simp [hp] at h
  | some p0 =>
    simp only [hp] at h
    exact ⟨p0, rfl, (Except.ok.inj h).symm⟩

lemma find?_map_at {α : Type} (g : α → α) (q : α → Bool)
    (hg : ∀ x, q (g x) = q x) (l : List α) (x0 : α)
    (h : l.find? q = some x0) :
    (l.map g).find? q = some (g x0) := by
  rw [find?_map_key g q hg l, h]
  rfl

-- ======================
-- claims
-- ======================

/-- C1: whenever `advanceStage` succeeds on an existing booking and stage, the
booking's resulting status is Completed exactly when the new stage's order is
the maximum stage_order of the whole catalog at call time, and InProgress in
every other case - with no hypothesis relating the new stage's order to the
previous stage's order (app.py:448-461). -/
theorem advanceStage_status_iff (db : DB) (bid nsid stf : Nat) (cp : Bool)
    (now : Time) (db' : DB)
    (h : advanceStage db bid nsid stf cp now = Except.ok db') :
    ∃ ns b', findStage db nsid = some ns ∧ findBooking db' bid = some b' ∧
      (b'.status = BStatus.Completed ↔
        ∀ t ∈ db.service_stages, t.stage_order ≤ ns.stage_order) ∧
      (b'.status = BStatus.InProgress ↔
        ¬ ∀ t ∈ db.service_stages, t.stage_order ≤ ns.stage_order) := by
  obtain ⟨b, ns, hb, hact, hs, hdb'⟩ := advanceStage_ok db bid nsid stf cp now db' h
  have hnsmem : ns ∈ db.service_stages := List.mem_of_find?_eq_some hs
  have hbid : b.booking_id = bid := by simpa using List.find?_some hb
  have hb' : db.bookings.find? (fun x => x.booking_id == bid) = some b := hb
  have hg : ∀ x : Booking,
      ((if x.booking_id = bid then
          { x with current_stage_id := some nsid,
                   status := if ns.stage_order = maxStageOrder db
                     then BStatus.Completed else BStatus.InProgress }
        else x).booking_id == bid) = (x.booking_id == bid) := by
    intro x
    by_cases hx : x.booking_id = bid <;> simp [hx]
  have hfind : findBooking db' bid = some
      { b with current_stage_id := some nsid,
               status := if ns.stage_order = maxStageOrder db
                 then BStatus.Completed else BStatus.InProgress } := by
    rw [hdb']
    dsimp only [findBooking]
    rw [find?_map_at _ _ hg db.bookings b hb']
    simp [hbid]
  refine ⟨ns, _, hs, hfind, ?_, ?_⟩ <;>
    by_cases hc : ns.stage_order = maxStageOrder db
  · show (if ns.stage_order = maxStageOrder db then BStatus.Completed
        else BStatus.InProgress) = BStatus.Completed ↔ _
    rw [if_pos hc]
    exact iff_of_true rfl ((maxStageOrder_eq_iff db ns hnsmem).mp hc)
  · show (if ns.stage_order = maxStageOrder db then BStatus.Completed
        else BStatus.InProgress) = BStatus.Completed ↔ _
    rw [if_neg hc]
    exact iff_of_false (by simp)
      (fun hub => hc ((maxStageOrder_eq_iff db ns hnsmem).mpr hub))
  · show (if ns.stage_order = maxStageOrder db then BStatus.Completed
        else BStatus.InProgress) = BStatus.InProgress ↔ _
    rw [if_pos hc]
    exact iff_of_false (by simp)
      (fun hn => hn ((maxStageOrder_eq_iff db ns hnsmem).mp hc))
  · show (if ns.stage_order = maxStageOrder db then BStatus.Completed
        else BStatus.InProgress) = BStatus.InProgress ↔ _
    rw [if_neg hc]
    exact iff_of_true rfl
      (fun hub => hc ((maxStageOrder_eq_iff db ns hnsmem).mpr hub))

/-- Witness for C1: advancing booking 1 of createdDB to stage 4 (the maximum
order) succeeds, and the instantiated conclusion holds. -/
theorem advanceStage_status_iff_witness :
    ∃ ns b', findStage createdDB 4 = some ns ∧ findBooking dbC 1 = some b' ∧
      (b'.status = BStatus.Completed ↔
        ∀ t ∈ createdDB.service_stages, t.stage_order ≤ ns.stage_order) ∧
      (b'.status = BStatus.InProgress ↔
        ¬ ∀ t ∈ createdDB.service_stages, t.stage_order ≤ ns.stage_order) :=
  advanceStage_status_iff createdDB 1 4 2 true 2 dbC rfl

/-- C5: an `advanceStage` call on a booking whose status is Completed or
Cancelled is rejected - such bookings never appear in the Update Stage picker
(app.py:408-412) - and the database is left unchanged. -/
theorem advance_terminal_rejected (db : DB) (bid nsid stf : Nat) (cp : Bool)
    (now : Time) (b : Booking) (hb : findBooking db bid = some b)
    (hterm : b.status = BStatus.Completed ∨ b.status = BStatus.Cancelled) :
    advanceStage db bid nsid stf cp now = Except.error Err.InvalidTransition ∧
    applyResult db (advanceStage db bid nsid stf cp now) = db := by
  have hact : activeStatus b.status = false := by
    rcases hterm with h1 | h1 <;> rw [h1] <;> rfl
  have hmain : advanceStage db bid nsid stf cp now
      = Except.error Err.InvalidTransition := by
    simp [advanceStage, hb, hact]
  exact ⟨hmain, by rw [hmain]; rfl⟩

/-- Witness for C5: booking 1 of dbC is Completed and advancing it is
rejected with the state unchanged. -/
theorem advance_terminal_rejected_witness :
    advanceStage dbC 1 2 2 true 3 = Except.error Err.InvalidTransition ∧
    applyResult dbC (advanceStage dbC 1 2 2 true 3) = dbC :=
  advance_terminal_rejected dbC 1 2 2 true 3
    ⟨1, 1, 1, 1, 1, none, BStatus.Completed, some 4, none⟩ (by decide)
    (Or.inl rfl)

/-- C6: `create` is rejected with NotFound when the vehicle is not one of the
customer's vehicles or the package row is absent, and with InvalidState when
the package exists but is inactive or when the catalog has no stages; every
rejected call leaves the database unchanged (no booking and no payment row
inserted). -/
theorem create_error_cases (db : DB) (c v p : Nat) (sc : Option Time)
    (nt : Option String) (now : Time) :
    (findVehicleOf db c v = none →
       create db c v p sc nt now = Except.error Err.NotFound) ∧
    (findVehicleOf db c v ≠ none → findPackage db p = none →
       create db c v p sc nt now = Except.error Err.NotFound) ∧
    (∀ pkg, findVehicleOf db c v ≠ none → findPackage db p = some pkg →
       pkg.is_active = false →
       create db c v p sc nt now = Except.error Err.InvalidState) ∧
    (∀ pkg, findVehicleOf db c v ≠ none → findPackage db p = some pkg →
       pkg.is_active = true → db.service_stages = [] →
       create db c v p sc nt now = Except.error Err.InvalidState) ∧
    (∀ e, create db c v p sc nt now = Except.error e →
       runCreate db c v p sc nt now = db) := by
  refine ⟨?_, ?_, ?_, ?_, ?_⟩
  · intro hv
    simp [create, hv]
  · intro hv hp
    obtain ⟨veh, hveh⟩ := Option.ne_none_iff_exists'.mp hv
    simp [create, hveh, hp]
  · intro pkg hv hp hia
    obtain ⟨veh, hveh⟩ := Option.ne_none_iff_exists'.mp hv
    simp [create, hveh, hp, hia]
  · intro pkg hv hp hia hst
    obtain ⟨veh, hveh⟩ := Option.ne_none_iff_exists'.mp hv
    simp [create, hveh, hp, hia, firstStage, hst, stageMin]
  · intro e he
    rw [runCreate, he]

/-- Witness for C6: the four rejection cases at concrete inputs on db0 (which
has vehicle 1 of customer 1, active package 1, inactive package 2) and on
dbNoStages, plus the unchanged-state conclusion. -/
theorem create_error_cases_witness :
    create db0 1 9 1 none none 1 = Except.error Err.NotFound ∧
    create db0 1 1 9 none none 1 = Except.error Err.NotFound ∧
    create db0 1 1 2 none none 1 = Except.error Err.InvalidState ∧
    create dbNoStages 1 1 1 none none 1 = Except.error Err.InvalidState ∧
    runCreate db0 1 9 1 none none 1 = db0 := by
  refine ⟨?_, ?_, ?_, ?_, ?_⟩
  · exact (create_error_cases db0 1 9 1 none none 1).1 (by decide)
  · exact (create_error_cases db0 1 1 9 none none 1).2.1 (by decide) (by decide)
  · exact (create_error_cases db0 1 1 2 none none 1).2.2.1
      ⟨2, "Old Promo", 300, 15, false⟩ (by decide) (by decide) rfl
  · exact (create_error_cases dbNoStages 1 1 1 none none 1).2.2.2.1
      ⟨1, "Basic Wash", 500, 20, true⟩ (by decide) (by decide) rfl rfl
  · exact (create_error_cases db0 1 9 1 none none 1).2.2.2.2 Err.NotFound
      ((create_error_cases db0 1 9 1 none none 1).1 (by decide))

/-- C7: a successful `updatePayment` on an existing payment row stores the new
method and status, and paid_at equals the current time exactly when the new
status is Paid and is NULL for every other status, discarding any previously
recorded timestamp (app.py:533-538). -/
theorem updatePayment_paid_at_iff (db : DB) (bid : Nat) (m : PMethod)
    (s : PStatus) (now : Time) (db' : DB)
    (h : updatePayment db bid m s now = Except.ok db') :
    ∃ p, findPayment db' bid = some p ∧ p.method = m ∧ p.payment_status = s ∧
      (p.paid_at = some now ↔ s = PStatus.Paid) ∧
      (s ≠ PStatus.Paid → p.paid_at = none) := by
  obtain ⟨p0, hp0, hdb'⟩ := updatePayment_ok db bid m s now db' h
  have hpbid : p0.booking_id = bid := by simpa using List.find?_some hp0
  have hp0' : db.payments.find? (fun x => x.booking_id == bid) = some p0 := hp0
  have hg : ∀ x : Payment,
      ((if x.booking_id = bid then
          { x with method := m, payment_status := s,
                   paid_at := if s = PStatus.Paid then some now else none }
        else x).booking_id == bid) = (x.booking_id == bid) := by
    intro x
    by_cases hx : x.booking_id = bid <;> simp [hx]
  have hfind : findPayment db' bid = some
      { p0 with method := m, payment_status := s,
                paid_at := if s = PStatus.Paid then some now else none } := by
    rw [hdb']
    dsimp only [findPayment]
    rw [find?_map_at _ _ hg db.payments p0 hp0']
    simp [hpbid]
  refine ⟨_, hfind, rfl, rfl, ?_, ?_⟩
  · by_cases hs : s = PStatus.Paid
    · show (if s = PStatus.Paid then some now else none) = some now ↔ _
      rw [if_pos hs]
      exact iff_of_true rfl hs
    · show (if s = PStatus.Paid then some now else none) = some now ↔ _
      rw [if_neg hs]
      exact iff_of_false (by simp) hs
  · intro hs
    show (if s = PStatus.Paid then some now else none) = none
    rw [if_neg hs]

/-- Witness for C7, on the claim's own scenario: booking 1's payment is first
marked Paid at tick 7 (dbPaid) and then Refunded at tick 8; the theorem
applied to the second call yields a NULL paid_at. -/
theorem updatePayment_paid_at_iff_witness :
    ∃ p, findPayment dbRef 1 = some p ∧ p.method = PMethod.Card ∧
      p.payment_status = PStatus.Refunded ∧
      (p.paid_at = some 8 ↔ PStatus.Refunded = PStatus.Paid) ∧
      (PStatus.Refunded ≠ PStatus.Paid → p.paid_at = none) :=
  updatePayment_paid_at_iff dbPaid 1 PMethod.Card PStatus.Refunded 8 dbRef rfl

/-- C2: a successful `create` inserts a booking with status Booked whose
current stage is the minimal-order stage, exactly one payment row for the new
booking (amount = the package's price at creation time, method Cash, status
Unpaid, NULL paid_at), and no history row for the booking
(app.py:297-316). -/
theorem create_postconditions (db : DB) (c v p : Nat) (sc : Option Time)
    (nt : Option String) (now : Time) (db' : DB) (bid : Nat)
    (hwf : DB.wf db) (h : create db c v p sc nt now = Except.ok (db', bid)) :
    ∃ b fs pkg pay,
      findBooking db' bid = some b ∧
      b.status = BStatus.Booked ∧
      fs ∈ db.service_stages ∧
      b.current_stage_id = some fs.stage_id ∧
      (∀ t ∈ db.service_stages, fs.stage_order ≤ t.stage_order) ∧
      findPackage db p = some pkg ∧
      db'.payments.filter (fun q => q.booking_id == bid) = [pay] ∧
      pay.amount = pkg.price ∧ pay.method = PMethod.Cash ∧
      pay.payment_status = PStatus.Unpaid ∧ pay.paid_at = none ∧
      db'.booking_stage_history.filter (fun h0 => h0.booking_id == bid) = [] := by
  obtain ⟨veh, pkg, fs, hveh, hp, hact, hfs, hbid, hdb'⟩ :=
    create_ok db c v p sc nt now db' bid h
  obtain ⟨hwb, hwp, hwh⟩ := hwf
  obtain ⟨hfsmem, hfsmin⟩ := stageMin_spec db.service_stages fs hfs
  subst hbid
  have hbooked : ∀ x ∈ db.bookings, (x.booking_id == db.next_booking_id) = false := by
    intro x hx
    rw [beq_eq_false_iff_ne]
    exact Nat.ne_of_lt (hwb x hx)
  have hfind : findBooking db' db.next_booking_id = some
      ⟨db.next_booking_id, c, v, p, now, sc, BStatus.Booked, some fs.stage_id, nt⟩ := by
    rw [hdb']
    dsimp only [findBooking]
    rw [find?_append_none _ _ _ hbooked, List.find?_cons_of_pos _ (by simp)]
  have hpay : db'.payments.filter (fun q => q.booking_id == db.next_booking_id)
      = [⟨db.next_payment_id, db.next_booking_id, pkg.price, PMethod.Cash,
          PStatus.Unpaid, none⟩] := by
    rw [hdb']
    show (db.payments ++ _).filter _ = _
    rw [List.filter_append,
      List.filter_eq_nil_iff.mpr (fun a ha => by
        have := hwp a ha
        simp only [beq_eq_false_iff_ne.mpr (Nat.ne_of_lt this)]
        exact Bool.false_ne_true)]
    simp
  have hhist : db'.booking_stage_history.filter
      (fun h0 => h0.booking_id == db.next_booking_id) = [] := by
    rw [hdb']
    show db.booking_stage_history.filter _ = []
    exact List.filter_eq_nil_iff.mpr (fun a ha => by
      have := hwh a ha
      simp only [beq_eq_false_iff_ne.mpr (Nat.ne_of_lt this)]
      exact Bool.false_ne_true)
  exact ⟨_, fs, pkg, _, hfind, rfl, hfsmem, rfl, hfsmin, hp, hpay, rfl, rfl,
    rfl, rfl, hhist⟩

/-- Witness for C2 at the concrete booking creation db0 → createdDB. -/
theorem create_postconditions_witness :
    DB.wf db0 ∧
    ∃ b fs pkg pay,
      findBooking createdDB 1 = some b ∧
      b.status = BStatus.Booked ∧
      fs ∈ db0.service_stages ∧
      b.current_stage_id = some fs.stage_id ∧
      (∀ t ∈ db0.service_stages, fs.stage_order ≤ t.stage_order) ∧
      findPackage db0 1 = some pkg ∧
      createdDB.payments.filter (fun q => q.booking_id == 1) = [pay] ∧
      pay.amount = pkg.price ∧ pay.method = PMethod.Cash ∧
      pay.payment_status = PStatus.Unpaid ∧ pay.paid_at = none ∧
      createdDB.booking_stage_history.filter (fun h0 => h0.booking_id == 1) = [] :=
  ⟨by decide, create_postconditions db0 1 1 1 none none 1 createdDB 1 (by decide) rfl⟩

/-- C8: `assign` is idempotent - starting from any state whose assignment
table satisfies its primary-key constraint for the pair, calling it twice for
a real booking and a real user succeeds both times (the duplicate insert is
swallowed, app.py:505-506, not an error) and leaves exactly one row for the
pair. -/
theorem assign_idempotent (db : DB) (b s : Nat) (t t' : Time)
    (hb : bookingExists db b = true) (hs : userExists db s = true)
    (hle : countAssign db b s ≤ 1) :
    ∃ db1, assign db b s t = Except.ok db1 ∧ assign db1 b s t' = Except.ok db1 ∧
      countAssign db1 b s = 1 := by
  cases hdup : db.booking_staff_assignment.any
      (fun a => a.booking_id == b && a.staff_id == s) with
  | true =>
    obtain ⟨x, hxmem, hxp⟩ := List.any_eq_true.mp hdup
    have hxf : x ∈ db.booking_staff_assignment.filter
        (fun a => a.booking_id == b && a.staff_id == s) :=
      List.mem_filter.mpr ⟨hxmem, hxp⟩
    have hpos : 0 < countAssign db b s := by
      rw [countAssign]
      exact List.length_pos.mpr (List.ne_nil_of_mem hxf)
    have hone : countAssign db b s = 1 := by omega
    have hins : insertAssignment db b s t = Except.error SqlErr.pkDuplicate := by
      simp [insertAssignment, hdup]
    have hins' : insertAssignment db b s t' = Except.error SqlErr.pkDuplicate := by
      simp [insertAssignment, hdup]
    exact ⟨db, by simp [assign, hins], by simp [assign, hins'], hone⟩
  | false =>
    have hins : insertAssignment db b s t = Except.ok
        { db with booking_staff_assignment :=
            db.booking_staff_assignment ++ [⟨b, s, t⟩] } := by
      simp [insertAssignment, hdup, hb, hs]
    have hfilnil : db.booking_staff_assignment.filter
        (fun a => a.booking_id == b && a.staff_id == s) = [] := by
      rw [List.filter_eq_nil_iff]
      intro a ha
      rw [List.any_eq_false] at hdup
      exact hdup a ha
    have hcount1 : countAssign
        { db with booking_staff_assignment :=
            db.booking_staff_assignment ++ [⟨b, s, t⟩] } b s = 1 := by
      show (List.filter _ (db.booking_staff_assignment ++ [(⟨b, s, t⟩ : Assignment)])).length = 1
      rw [List.filter_append, hfilnil]
      simp
    have hdup1 : ({ db with booking_staff_assignment :=
        db.booking_staff_assignment ++ [⟨b, s, t⟩] } : DB).booking_staff_assignment.any
        (fun a => a.booking_id == b && a.staff_id == s) = true := by
      show (db.booking_staff_assignment ++ [(⟨b, s, t⟩ : Assignment)]).any
        (fun a => a.booking_id == b && a.staff_id == s) = true
      simp
    have hins' : insertAssignment
        { db with booking_staff_assignment :=
            db.booking_staff_assignment ++ [⟨b, s, t⟩] } b s t'
        = Except.error SqlErr.pkDuplicate := by
      simp [insertAssignment, hdup1]
    exact ⟨{ db with booking_staff_assignment :=
        db.booking_staff_assignment ++ [⟨b, s, t⟩] },
      by simp [assign, hins], by simp [assign, hins'], hcount1⟩

/-- Witness for C8: assigning staff 2 to booking 1 of createdDB twice. -/
theorem assign_idempotent_witness :
    ∃ db1, assign createdDB 1 2 5 = Except.ok db1 ∧
      assign db1 1 2 6 = Except.ok db1 ∧ countAssign db1 1 2 = 1 :=
  assign_idempotent createdDB 1 2 5 6 (by decide) (by decide) (by decide)

/-- C9 counterexample: booking 9 does not exist in createdDB, so the
assignment insert fails with a foreign-key IntegrityError - a failure that is
NOT a duplicate (booking, staff) pair, as the pair count 0 shows - yet
`assign` reports success with the state unchanged instead of surfacing the
error to the caller. -/
theorem assign_fk_swallowed_cex :
    insertAssignment createdDB 9 2 5 = Except.error SqlErr.fkViolation ∧
    countAssign createdDB 9 2 = 0 ∧
    assign createdDB 9 2 5 = Except.ok createdDB :=
  ⟨by decide, by decide, by decide⟩

/-- C9 amended: the bare except clause (app.py:505-506) swallows EVERY
sqlite3.IntegrityError of the assignment insert - foreign-key violations from
unknown booking or staff identifiers just like the documented duplicate-pair
case - reporting success and leaving the registry unchanged; no such failure
is surfaced to the caller. -/
theorem assign_swallows_integrity (db : DB) (b s : Nat) (t : Time) (e : SqlErr)
    (h : insertAssignment db b s t = Except.error e) :
    assign db b s t = Except.ok db := by
  simp [assign, h]

/-- Witness for the amended C9 at the concrete dangling booking id 9. -/
theorem assign_swallows_integrity_witness :
    assign createdDB 9 2 5 = Except.ok createdDB :=
  assign_swallows_integrity createdDB 9 2 5 SqlErr.fkViolation (by decide)

/-- C10: any sequence of `updatePayment` calls on a booking changes only the
method, payment_status and paid_at columns: every payment row keeps its
payment_id, booking_id and amount (in particular the amount recorded at
booking creation), rows of other bookings are untouched, and no other table
is written (app.py:535-538). -/
theorem updatePayment_frame (db : DB) (bid : Nat)
    (us : List (PMethod × PStatus × Time)) :
    (runPayUpdates db bid us).payments.map paySnapshot
      = db.payments.map paySnapshot ∧
    (runPayUpdates db bid us).bookings = db.bookings ∧
    (runPayUpdates db bid us).booking_stage_history = db.booking_stage_history ∧
    ∀ p ∈ db.payments, p.booking_id ≠ bid →
      p ∈ (runPayUpdates db bid us).payments := by
  induction us generalizing db with
  | nil => exact ⟨rfl, rfl, rfl, fun p hp _ => hp⟩
  | cons u rest ih =>
    have hstep : (applyResult db (updatePayment db bid u.1 u.2.1 u.2.2)).payments.map
          paySnapshot = db.payments.map paySnapshot ∧
        (applyResult db (updatePayment db bid u.1 u.2.1 u.2.2)).bookings
          = db.bookings ∧
        (applyResult db (updatePayment db bid u.1 u.2.1 u.2.2)).booking_stage_history
          = db.booking_stage_history ∧
        ∀ p ∈ db.payments, p.booking_id ≠ bid →
          p ∈ (applyResult db (updatePayment db bid u.1 u.2.1 u.2.2)).payments := by
      cases hu : updatePayment db bid u.1 u.2.1 u.2.2 with
      | error e => exact ⟨rfl, rfl, rfl, fun p hp _ => hp⟩
      | ok db2 =>
        obtain ⟨p0, hp0, hdb2⟩ := updatePayment_ok db bid u.1 u.2.1 u.2.2 db2 hu
        subst hdb2
        refine ⟨?_, rfl, rfl, ?_⟩
        · show (db.payments.map _).map paySnapshot = _
          rw [List.map_map]
          apply List.map_congr_left
          intro x _
          by_cases hx : x.booking_id = bid <;> simp [paySnapshot, hx]
        · intro p hp hne
          have hmm := List.mem_map_of_mem (fun q : Payment =>
            if q.booking_id = bid then
              { q with method := u.1, payment_status := u.2.1,
                       paid_at := if u.2.1 = PStatus.Paid then some u.2.2 else none }
            else q) hp
          simp only [if_neg hne] at hmm
          exact hmm
    have hrun : runPayUpdates db bid (u :: rest)
        = runPayUpdates (applyResult db (updatePayment db bid u.1 u.2.1 u.2.2))
            bid rest := rfl
    rw [hrun]
    obtain ⟨h1, h2, h3, h4⟩ := ih (applyResult db (updatePayment db bid u.1 u.2.1 u.2.2))
    obtain ⟨s1, s2, s3, s4⟩ := hstep
    exact ⟨h1.trans s1, h2.trans s2, h3.trans s3,
      fun p hp hne => h4 p (s4 p hp hne) hne⟩

/-- Witness for C10 on the claim's Paid-then-Refunded sequence against
createdDB. -/
theorem updatePayment_frame_witness :
    (runPayUpdates createdDB 1
        [(PMethod.Card, PStatus.Paid, 7), (PMethod.Card, PStatus.Refunded, 8)]).payments.map
      paySnapshot = createdDB.payments.map paySnapshot :=
  (updatePayment_frame createdDB 1
    [(PMethod.Card, PStatus.Paid, 7), (PMethod.Card, PStatus.Refunded, 8)]).1

/-- One 'End previous stage' advance preserves the open-history invariant: it
closes every open row of the booking (all of them belong to the current
stage) and opens exactly one new row, for the new current stage. -/
lemma advance_true_openInv (db : DB) (bid ns st : Nat) (now : Time) (db' : DB)
    (hinv : OpenInv db bid)
    (h : advanceStage db bid ns st true now = Except.ok db') :
    OpenInv db' bid := by
  obtain ⟨b, nstage, hb, hact, hns, hdb'⟩ := advanceStage_ok db bid ns st true now db' h
  obtain ⟨hcnt, hcur⟩ := hinv
  have hbid : b.booking_id = bid := by simpa using List.find?_some hb
  have hb' : db.bookings.find? (fun x => x.booking_id == bid) = some b := hb
  have hcurb : currentOf db bid = b.current_stage_id := by
    rw [currentOf, hb]
    rfl
  have hclosed : ∀ h0 ∈ closedHist db bid b true now,
      (h0.booking_id == bid && h0.end_time == none) = false := by
    rw [closedHist, if_pos rfl]
    cases hcs : b.current_stage_id with
    | none =>
      intro h0 hmem
      cases hx : (h0.booking_id == bid && h0.end_time == none) with
      | false => rfl
      | true =>
        exfalso
        simp only [Bool.and_eq_true, beq_iff_eq] at hx
        have hcse : currentOf db bid = some h0.stage_id := hcur h0 hmem hx.1 hx.2
        rw [hcurb, hcs] at hcse
        exact Option.noConfusion hcse
    | some cs =>
      intro h0 hmem
      obtain ⟨h1, h1mem, rfl⟩ := List.mem_map.mp hmem
      by_cases hc1 : h1.booking_id = bid ∧ h1.stage_id = cs ∧ h1.end_time = none
      · rw [if_pos hc1]
        simp
      · rw [if_neg hc1]
        cases hx : (h1.booking_id == bid && h1.end_time == none) with
        | false => rfl
        | true =>
          exfalso
          simp only [Bool.and_eq_true, beq_iff_eq] at hx
          have hcse : currentOf db bid = some h1.stage_id := hcur h1 h1mem hx.1 hx.2
          rw [hcurb, hcs] at hcse
          exact hc1 ⟨hx.1, (Option.some.inj hcse).symm, hx.2⟩
  have hopen' : openEntries db' bid = [⟨db.next_history_id, bid, ns, now, none, st⟩] := by
    rw [hdb']
    dsimp only [openEntries]
    rw [List.filter_append,
      List.filter_eq_nil_iff.mpr (fun a ha => by
        rw [hclosed a ha]
        exact Bool.false_ne_true)]
    simp
  have hg : ∀ x : Booking,
      ((if x.booking_id = bid then
          { x with current_stage_id := some ns,
                   status := if nstage.stage_order = maxStageOrder db
                     then BStatus.Completed else BStatus.InProgress }
        else x).booking_id == bid) = (x.booking_id == bid) := by
    intro x
    by_cases hx : x.booking_id = bid <;> simp [hx]
  have hfind : findBooking db' bid = some
      { b with current_stage_id := some ns,
               status := if nstage.stage_order = maxStageOrder db
                 then BStatus.Completed else BStatus.InProgress } := by
    rw [hdb']
    dsimp only [findBooking]
    rw [find?_map_at _ _ hg db.bookings b hb']
    simp [hbid]
  constructor
  · rw [openCount, hopen']
    simp
  · intro h0 hmem hb0 hend
    have hmem' : h0 ∈ openEntries db' bid :=
      List.mem_filter.mpr ⟨hmem, by simp [hb0, hend]⟩
    rw [hopen'] at hmem'
    have heq : h0 = ⟨db.next_history_id, bid, ns, now, none, st⟩ := by
      simpa using hmem'
    subst heq
    rw [currentOf, hfind]
    rfl

/-- A failed step aborts the whole 'all advances succeed' sequence. -/
lemma runAdvancesTrue_error (bid : Nat) (calls : List (Nat × Nat × Time))
    (e : Err) :
    calls.foldl (stepAdvanceTrue bid) (Except.error e) = Except.error e := by
  induction calls with
  | nil => rfl
  | cons c cs ih =>
    rw [List.foldl_cons]
    exact ih

/-- C3 amended: the claimed bound (at most one open history row immediately
after a closePrevious=true advance) holds for bookings all of whose advances
used closePrevious=true - formally, from any state satisfying the open-history
invariant (e.g. right after `create`, when the booking has no history at all).
A closePrevious=false advance in between can leave a stale open row for
another stage which a later closePrevious=true call does not close (it only
closes rows of the current stage, app.py:440-444), as the counterexample
shows. -/
theorem advances_closeTrue_open_le_one (db : DB) (bid : Nat)
    (calls : List (Nat × Nat × Time)) (d : DB)
    (hinv : OpenInv db bid) (h : runAdvancesTrue db bid calls = Except.ok d) :
    openCount d bid ≤ 1 := by
  induction calls generalizing db with
  | nil =>
    have hd : db = d := Except.ok.inj h
    exact hd ▸ hinv.1
  | cons c cs ih =>
    rw [runAdvancesTrue, List.foldl_cons] at h
    have h' : cs.foldl (stepAdvanceTrue bid)
        (advanceStage db bid c.1 c.2.1 true c.2.2) = Except.ok d := h
    cases hs : advanceStage db bid c.1 c.2.1 true c.2.2 with
    | error e =>
      rw [hs, runAdvancesTrue_error] at h'
      exact absurd h' (by simp)
    | ok db2 =>
      rw [hs] at h'
      exact ih db2 (advance_true_openInv db bid c.1 c.2.1 c.2.2 db2 hinv hs) h'

/-- Witness for the amended C3: two closePrevious=true advances from
createdDB leave at most one open history row. -/
theorem advances_closeTrue_open_le_one_witness :
    OpenInv createdDB 1 ∧ openCount dEx3 1 ≤ 1 :=
  ⟨by decide,
   advances_closeTrue_open_le_one createdDB 1 [(2, 2, 2), (3, 2, 3)] dEx3
     (by decide) rfl⟩

/-- C3 counterexample: createdDB → advance to Washing (closePrevious=true) →
advance to Drying (closePrevious=false) → advance to Polishing
(closePrevious=true).  The final call has closePrevious=true and succeeds,
yet booking 1 ends with TWO open history rows (the stale Washing row and the
new Polishing row), violating the claimed size-at-most-1 bound. -/
theorem open_after_closeTrue_cex :
    advanceStage dbWD 1 3 2 true 4 = Except.ok dbP ∧ openCount dbP 1 = 2 :=
  ⟨by decide, by decide⟩

/-- C4 amended: an `advanceStage` call with closePrevious=true and a non-null
current stage sets end_time = now on EVERY history row of (booking, current
stage) whose end_time is null - not only the most recent one - and leaves
every other pre-existing row unmodified; when no open row exists the step is
a no-op and not an error (app.py:439-444). -/
theorem advance_close_all (db : DB) (bid nsid stf : Nat) (now : Time)
    (db' : DB) (b : Booking) (cs : Nat)
    (hwf : DB.wfHistIds db)
    (hb : findBooking db bid = some b) (hcs : b.current_stage_id = some cs)
    (h : advanceStage db bid nsid stf true now = Except.ok db') :
    ∀ h0 ∈ db.booking_stage_history,
      (h0.booking_id = bid ∧ h0.stage_id = cs ∧ h0.end_time = none →
        findHist db' h0.history_id = some { h0 with end_time := some now }) ∧
      (¬(h0.booking_id = bid ∧ h0.stage_id = cs ∧ h0.end_time = none) →
        findHist db' h0.history_id = some h0) := by
  obtain ⟨b2, ns, hb2, hact, hns, hdb'⟩ := advanceStage_ok db bid nsid stf true now db' h
  rw [hb] at hb2
  have hbb : b2 = b := (Option.some.inj hb2).symm
  rw [hbb] at hdb'
  obtain ⟨hlt, hpw⟩ := hwf
  intro h0 hmem
  have hch : closedHist db bid b true now
      = closeOpen db.booking_stage_history bid cs now := by
    rw [closedHist, if_pos rfl, hcs]
  have hgpres : ∀ x : HistoryEntry,
      ((if x.booking_id = bid ∧ x.stage_id = cs ∧ x.end_time = none then
          { x with end_time := some now } else x).history_id == h0.history_id)
        = (x.history_id == h0.history_id) := by
    intro x
    by_cases hx : x.booking_id = bid ∧ x.stage_id = cs ∧ x.end_time = none <;>
      simp [hx]
  have hfind0 : db.booking_stage_history.find?
      (fun x => x.history_id == h0.history_id) = some h0 :=
    find?_pairwise_ne _ h0 hmem hpw
  have hfindm : (closeOpen db.booking_stage_history bid cs now).find?
      (fun x => x.history_id == h0.history_id) = some
        (if h0.booking_id = bid ∧ h0.stage_id = cs ∧ h0.end_time = none then
          { h0 with end_time := some now } else h0) := by
    rw [closeOpen]
    exact find?_map_at _ _ hgpres db.booking_stage_history h0 hfind0
  have hfind' : findHist db' h0.history_id = some
      (if h0.booking_id = bid ∧ h0.stage_id = cs ∧ h0.end_time = none then
        { h0 with end_time := some now } else h0) := by
    rw [hdb']
    dsimp only [findHist]
    rw [hch]
    exact find?_append_some _ _ _ _ hfindm
  constructor
  · intro hcond
    rw [hfind', if_pos hcond]
  · intro hcond
    rw [hfind', if_neg hcond]

/-- Witness for the amended C4: in dbW the open Washing row (id 1) of booking
1 gets closed at tick 3 by the closePrevious=true advance to Drying. -/
theorem advance_close_all_witness :
    findHist dbWDc 1 = some ⟨1, 1, 1, 2, some 3, 2⟩ :=
  ((advance_close_all dbW 1 2 2 3 dbWDc
      ⟨1, 1, 1, 1, 1, none, BStatus.InProgress, some 1, none⟩ 1
      (by decide) (by decide) rfl rfl)
    ⟨1, 1, 1, 2, none, 2⟩ (by decide)).1 (by decide)

/-- C4 counterexample: in dbWW booking 1 has TWO open history rows for its
current stage Washing (ids 1 and 2; id 2 is the most recent).  The
closePrevious=true advance to Drying succeeds and sets end_time = 4 on BOTH
rows, not exactly on the most recent one: row id 1 is modified as well. -/
theorem close_most_recent_cex :
    advanceStage dbWW 1 2 2 true 4 = Except.ok dbX ∧
    findHist dbX 1 = some ⟨1, 1, 1, 2, some 4, 2⟩ ∧
    findHist dbX 2 = some ⟨2, 1, 1, 3, some 4, 2⟩ :=
  ⟨by decide, by decide, by decide⟩

end Carwash
